import Mathlib

set_option maxRecDepth 8000
set_option maxHeartbeats 1000000

/-!
Shallow embedding of the CoolRide Telegram bot (src/main.py).

Python strings are modelled as lists of characters (`Str`); the string
operations the bot uses (lower, strip, split, replace, substring test,
int parsing, list indexing) are modelled with Python's semantics, using
structural fuel recursion so that every definition evaluates by kernel
reduction.  The chat transport and the external geocoding service are
abstracted: each handler takes the geocoder's behaviour as a function
argument and returns the updated per-user session together with the
list of replies sent during the event.  Latitude and longitude appear
only as already-rendered decimal strings, since the bot never computes
with them and only interpolates them into a URL.
-/

namespace CoolRide

/-- Python strings, modelled as lists of characters. -/
abbrev Str := List Char

/-- Embed a Lean string literal into the character-list model. -/
def str (s : String) : Str := s.toList

/-- Python str.lower, for the ASCII text the bot manipulates. -/
def pyLower (l : Str) : Str := l.map Char.toLower

/-- Whitespace recognised by the model of Python str.strip. -/
def isPySpace (c : Char) : Bool := c = ' ' || c = '\t' || c = '\n' || c = '\r'

/-- Remove leading whitespace (one side of Python str.strip). -/
def lstrip (l : Str) : Str := l.dropWhile isPySpace

/-- Python str.strip: remove leading and trailing whitespace. -/
def pyStrip (l : Str) : Str := (lstrip (lstrip l).reverse).reverse

/-- Boolean prefix test on character lists. -/
def isPrefixB : Str → Str → Bool
  | [], _ => true
  | _ :: _, [] => false
  | p :: ps, c :: cs => if p = c then isPrefixB ps cs else false

/-- Python substring containment, the `in` operator on strings. -/
def hasSub (pat : Str) : Str → Bool
  | [] => isPrefixB pat []
  | c :: rest => isPrefixB pat (c :: rest) || hasSub pat rest

/-- Cons a character onto the first token of a split result. -/
def consHead (c : Char) : List Str → List Str
  | [] => [[c]]
  | t :: ts => (c :: t) :: ts

/-- Fuelled core of Python str.split for a nonempty separator.  The fuel
drops by one per examined character and the scanned list drops by at
least that much, so `pySplit` below always supplies enough fuel. -/
def pySplitF (sep : Str) : Nat → Str → List Str
  | _, [] => [[]]
  | 0, c :: rest => [c :: rest]
  | f + 1, c :: rest =>
    if isPrefixB sep (c :: rest) = true ∧ sep ≠ [] then
      [] :: pySplitF sep f (rest.drop (sep.length - 1))
    else
      consHead c (pySplitF sep f rest)

/-- Python str.split on a nonempty separator. -/
def pySplit (sep l : Str) : List Str := pySplitF sep l.length l

/-- Fuelled core of Python str.replace, scanning left to right and
skipping past each non-overlapping occurrence of `old`. -/
def pyReplaceF (old new : Str) : Nat → Str → Str
  | _, [] => []
  | 0, c :: rest => c :: rest
  | f + 1, c :: rest =>
    if isPrefixB old (c :: rest) = true ∧ old ≠ [] then
      new ++ pyReplaceF old new f (rest.drop (old.length - 1))
    else
      c :: pyReplaceF old new f rest

/-- Python str.replace for a nonempty pattern, as used by the bot. -/
def pyReplace (old new l : Str) : Str := pyReplaceF old new l.length l

/-- Value of a nonempty all-digit string. -/
def digitsVal (l : Str) : Option Nat :=
  if l ≠ [] ∧ l.all Char.isDigit = true then
    some (l.foldl (fun a c => a * 10 + (c.toNat - 48)) 0)
  else none

/-- Python int() on a string: strip, optional sign, digits; `none`
models the ValueError raised on anything else. -/
def pyInt (l : Str) : Option Int :=
  match pyStrip l with
  | '-' :: rest => (digitsVal rest).map (fun n => -(n : Int))
  | '+' :: rest => (digitsVal rest).map (fun n => (n : Int))
  | t => (digitsVal t).map (fun n => (n : Int))

/-- Python list indexing, with negative indices counting from the end;
`none` models the IndexError raised when the index is out of bounds. -/
def pyIndex {α : Type} (l : List α) (i : Int) : Option α :=
  if 0 ≤ i then l.get? i.toNat
  else if 0 ≤ i + l.length then l.get? (i + l.length).toNat
  else none

/-- A recommended place: a name and a short reason (src/main.py lines 23-39). -/
structure Place where
  name : Str
  reason : Str
deriving DecidableEq

/-- The fixed nature recommendations. -/
def naturePlaces : List Place :=
  [⟨str ("Botanic Gardens"), str ("UNESCO site with lush greenery")⟩,
   ⟨str ("East Coast Park"), str ("Beachside cycling with sea breeze")⟩,
   ⟨str ("Punggol Waterway"), str ("Peaceful waterfront trail")⟩]

/-- The fixed food recommendations. -/
def foodPlaces : List Place :=
  [⟨str ("Tiong Bahru"), str ("Hip cafes in heritage shophouses")⟩,
   ⟨str ("Joo Chiat"), str ("Peranakan food and colorful streets")⟩,
   ⟨str ("Kampong Glam"), str ("Middle Eastern eats near Haji Lane")⟩]

/-- The fixed views recommendations. -/
def viewsPlaces : List Place :=
  [⟨str ("Marina Bay Sands"), str ("Iconic skyline views")⟩,
   ⟨str ("Gardens by the Bay"), str ("Stunning Supertrees")⟩,
   ⟨str ("Henderson Waves"), str ("Highest pedestrian bridge")⟩]

/-- The static mood-to-places dictionary FALLBACK_PLACES. -/
def FALLBACK_PLACES : List (Str × List Place) :=
  [(str ("nature"), naturePlaces),
   (str ("food"), foodPlaces),
   (str ("views"), viewsPlaces)]

/-- Per-user session dictionary.  A missing key is `none` (or `false`
for the truthiness test on awaiting_start); the empty dict is
`Session.empty`. -/
structure Session where
  mode : Option Str := none
  mood : Option Str := none
  recommendations : Option (List Place) := none
  destination : Option Str := none
  awaiting_start : Bool := false
deriving DecidableEq

/-- The empty session dict `{}`. -/
def Session.empty : Session := {}

/-- A coordinate pair as rendered into the URL: latitude and longitude
as decimal strings. -/
abbrev Coord := Str × Str

/-- Outbound replies, abstracting the chat messages and menus sent by
the handlers.  Each constructor records the data that varies: the
route-ready message carries the echoed origin and destination and the
constructed link. -/
inductive Reply where
  | modeMenu (username : Str)
  | directPrompt
  | moodMenu
  | distMenu (mood : Str)
  | placeMenu (recs : List Place)
  | askStart (dest : Str)
  | finding
  | routeReady (origin dest url : Str)
  | notFound
  | genericHint
deriving DecidableEq

/-- Greeting words recognised by handle_message (src/main.py line 139). -/
def greetings : List Str := [str ("hi"), str ("hello"), str ("hey"), str ("start")]

/-- One external geocoding result; `none` in a field models a value
float() fails to parse (the exception is swallowed by the caller). -/
structure GeoResult where
  lat : Option Rat
  lon : Option Rat
deriving DecidableEq

/-- Behaviour of the external geocoding request: a network failure,
timeout or malformed body, or a (possibly empty) result list. -/
inductive GeoResponse where
  | failure
  | results (rs : List GeoResult)
deriving DecidableEq

/-- The query URL built by geocode_location (src/main.py line 43): the
place name with the fixed regional qualifier appended. -/
def geocode_query (place : Str) : Str :=
  str ("https://nominatim.openstreetmap.org/search?q=") ++
    (place ++ str (", Singapore&format=json&limit=1"))

/-- geocode_location (src/main.py lines 41-50): take the first result
and parse its coordinates; any failure is caught and yields `none`. -/
def geocode_location (place : Str) (resp : GeoResponse) : Option (Rat × Rat) :=
  match resp with
  | .failure => none
  | .results [] => none
  | .results (r :: _) =>
    match r.lat, r.lon with
    | some la, some lo => some (la, lo)
    | _, _ => none

/-- start_command (src/main.py lines 52-68): reset the session to the
empty dict and show the mode-choice menu. -/
def start_command (username : Str) : Session × List Reply :=
  (Session.empty, [Reply.modeMenu username])

/-- handle_callback (src/main.py lines 78-132): menu-selection events,
keyed by the callback data string. -/
def handle_callback (s : Session) (data : Str) : Session × List Reply :=
  if data = str ("mode_direct") then
    ({ mode := some (str ("direct")) }, [Reply.directPrompt])
  else if data = str ("mode_recommend") then
    (s, [Reply.moodMenu])
  else if isPrefixB (str ("mood_")) data = true then
    let mood := pyReplace (str ("mood_")) [] data
    ({ s with mood := some mood }, [Reply.distMenu mood])
  else if isPrefixB (str ("dist_")) data = true then
    let mood := s.mood.getD (str ("nature"))
    let recs := (FALLBACK_PLACES.lookup mood).getD naturePlaces
    ({ s with recommendations := some recs }, [Reply.placeMenu recs])
  else if isPrefixB (str ("place_")) data = true then
    match pyInt (pyReplace (str ("place_")) [] data) with
    | none => (s, [])
    | some idx =>
      let recs := s.recommendations.getD []
      if idx < (recs.length : Int) then
        match pyIndex recs idx with
        | some r =>
          ({ s with destination := some r.name, awaiting_start := true },
           [Reply.askStart r.name])
        | none => (s, [])
      else (s, [])
  else (s, [])

/-- The simple route detection of handle_message (src/main.py lines
162-167): lowercase, require both "from" and "to" as substrings, split
on "to", delete every occurrence of "from" from the first part, strip
both parts, and require both nonempty. -/
def route_detect (text : Str) : Option (Str × Str) :=
  let lt := pyLower text
  if hasSub (str ("from")) lt = true ∧ hasSub (str ("to")) lt = true then
    let parts := pySplit (str ("to")) lt
    let st := pyStrip (pyReplace (str ("from")) [] (parts.getD 0 []))
    let en := if 1 < parts.length then pyStrip (parts.getD 1 []) else []
    if st ≠ [] ∧ en ≠ [] then some (st, en) else none
  else none

/-- handle_message (src/main.py lines 134-180).  `geo` is the observed
behaviour of geocode_location during this event; `appUrl` is APP_URL;
`user_id` and `username` come from the update.  The returned session
replaces the user's entry in the store. -/
def handle_message (geo : Str → Option Coord) (appUrl user_id username : Str)
    (s : Session) (text : Str) : Session × List Reply :=
  if pyStrip (pyLower text) ∈ greetings then
    start_command username
  else if s.awaiting_start = true then
    let dest := s.destination.getD []
    match geo text, geo dest with
    | some sc, some ec =>
      (Session.empty,
       [Reply.finding,
        Reply.routeReady text dest
          (appUrl ++ str ("?start=") ++ sc.1 ++ str (",") ++ sc.2 ++
            str ("&end=") ++ ec.1 ++ str (",") ++ ec.2 ++ str ("&tg=") ++ user_id)])
    | _, _ => (s, [Reply.finding, Reply.notFound])
  else
    match route_detect text with
    | some (st, en) =>
      match geo st, geo en with
      | some sc, some ec =>
        (s,
         [Reply.finding,
          Reply.routeReady st en
            (appUrl ++ str ("?start=") ++ sc.1 ++ str (",") ++ sc.2 ++
              str ("&end=") ++ ec.1 ++ str (",") ++ ec.2 ++ str ("&tg=") ++ user_id)])
      | _, _ => (s, [Reply.finding, Reply.genericHint])
    | none => (s, [Reply.genericHint])

/-- The link format asserted by the specification, after amendment:
base URL, then start, end and tg query parameters. -/
def specLink (base : Str) (sc ec : Coord) (uid : Str) : Str :=
  base ++ str ("?start=") ++ sc.1 ++ str (",") ++ sc.2 ++
    str ("&end=") ++ ec.1 ++ str (",") ++ ec.2 ++ str ("&tg=") ++ uid

/-- The recommendation list computed by the distance-selection branch
of handle_callback (src/main.py lines 115-116). -/
def distRecs (s : Session) : List Place :=
  (FALLBACK_PLACES.lookup (s.mood.getD (str ("nature")))).getD naturePlaces

/-- The spec-side fixed three-entry list for a mood, defaulting to the
nature list; used to compare the handler's stored recommendations
against the specification's description. -/
def specPlacesFor (mood : Str) : List Place :=
  if mood = str ("nature") then naturePlaces
  else if mood = str ("food") then foodPlaces
  else if mood = str ("views") then viewsPlaces
  else naturePlaces

/-- A pattern is a prefix of itself followed by anything. -/
theorem isPrefixB_append_self (p l : Str) : isPrefixB p (p ++ l) = true := by
  induction p with
  | nil => rfl
  | cons c ps ih => simp [isPrefixB, ih]

/-- A successful prefix test anywhere gives a substring occurrence. -/
theorem hasSub_of_isPrefixB (pat l : Str) (h : isPrefixB pat l = true) :
    hasSub pat l = true := by
  cases l with
  | nil => exact h
  | cons c rest => simp [hasSub, h]

/-- Substring occurrences survive prepending text. -/
theorem hasSub_append_right (pat l m : Str) (h : hasSub pat m = true) :
    hasSub pat (l ++ m) = true := by
  induction l with
  | nil => simpa using h
  | cons c ls ih => simp [hasSub, ih]

/-- Absence of a substring in a cons, from absence at the head and in the tail. -/
theorem hasSub_cons_false (pat : Str) (c : Char) (l : Str)
    (h1 : isPrefixB pat (c :: l) = false) (h2 : hasSub pat l = false) :
    hasSub pat (c :: l) = false := by
  simp [hasSub, h1, h2]

/-- Splitting absence of a substring in a cons into its two components. -/
theorem hasSub_cons_elim (pat : Str) (c : Char) (l : Str)
    (h : hasSub pat (c :: l) = false) :
    isPrefixB pat (c :: l) = false ∧ hasSub pat l = false := by
  simpa [hasSub, Bool.or_eq_false_iff] using h

/-- The fuel argument of pyReplaceF is irrelevant once it covers the input. -/
theorem pyReplaceF_fuel (old new : Str) :
    ∀ (f g : Nat) (l : Str), l.length ≤ f → l.length ≤ g →
      pyReplaceF old new f l = pyReplaceF old new g l := by
  intro f
  induction f with
  | zero =>
    intro g l hf _
    have hl : l = [] := List.length_eq_zero.mp (Nat.le_zero.mp hf)
    subst hl
    cases g <;> rfl
  | succ f ih =>
    intro g l hf hg
    cases l with
    | nil => cases g <;> rfl
    | cons c rest =>
      cases g with
      | zero => simp at hg
      | succ g =>
        simp only [pyReplaceF]
        have hf2 : rest.length ≤ f := by simp at hf; omega
        have hg2 : rest.length ≤ g := by simp at hg; omega
        have hd : (rest.drop (old.length - 1)).length ≤ rest.length := by
          rw [List.length_drop]; omega
        by_cases h : isPrefixB old (c :: rest) = true ∧ old ≠ []
        · rw [if_pos h, if_pos h]
          exact congrArg (new ++ ·) (ih g _ (le_trans hd hf2) (le_trans hd hg2))
        · rw [if_neg h, if_neg h]
          exact congrArg (c :: ·) (ih g rest hf2 hg2)

/-- pyReplaceF leaves a string without the pattern untouched. -/
theorem pyReplaceF_not_hasSub (old new : Str) :
    ∀ (f : Nat) (l : Str), l.length ≤ f → hasSub old l = false →
      pyReplaceF old new f l = l := by
  intro f
  induction f with
  | zero =>
    intro l hf _
    have hl : l = [] := List.length_eq_zero.mp (Nat.le_zero.mp hf)
    subst hl; rfl
  | succ f ih =>
    intro l hf hs
    cases l with
    | nil => rfl
    | cons c rest =>
      obtain ⟨h1, h2⟩ := hasSub_cons_elim old c rest hs
      simp only [pyReplaceF]
      rw [if_neg (by simp [h1])]
      exact congrArg (c :: ·) (ih rest (by simp at hf; omega) h2)

/-- Python replace leaves a string without the pattern untouched. -/
theorem pyReplace_not_hasSub (old new l : Str) (h : hasSub old l = false) :
    pyReplace old new l = l :=
  pyReplaceF_not_hasSub old new l.length l le_rfl h

/-- Python replace on a string starting with the pattern: substitute the
occurrence and continue after it. -/
theorem pyReplace_append_self (old new rest : Str) (h : old ≠ []) :
    pyReplace old new (old ++ rest) = new ++ pyReplace old new rest := by
  match old, h with
  | o :: os, _ =>
    show pyReplaceF (o :: os) new ((o :: os ++ rest).length) (o :: (os ++ rest))
        = new ++ pyReplaceF (o :: os) new rest.length rest
    rw [show (o :: os ++ rest).length = (os ++ rest).length + 1 by simp]
    simp only [pyReplaceF]
    rw [if_pos ⟨isPrefixB_append_self (o :: os) rest, by simp⟩]
    rw [show (o :: os).length - 1 = os.length by simp]
    rw [List.drop_left os rest]
    exact congrArg (new ++ ·)
      (pyReplaceF_fuel (o :: os) new _ _ rest (by simp) le_rfl)

/-- The fuel argument of pySplitF is irrelevant once it covers the input. -/
theorem pySplitF_fuel (sep : Str) :
    ∀ (f g : Nat) (l : Str), l.length ≤ f → l.length ≤ g →
      pySplitF sep f l = pySplitF sep g l := by
  intro f
  induction f with
  | zero =>
    intro g l hf _
    have hl : l = [] := List.length_eq_zero.mp (Nat.le_zero.mp hf)
    subst hl
    cases g <;> rfl
  | succ f ih =>
    intro g l hf hg
    cases l with
    | nil => cases g <;> rfl
    | cons c rest =>
      cases g with
      | zero => simp at hg
      | succ g =>
        simp only [pySplitF]
        have hf2 : rest.length ≤ f := by simp at hf; omega
        have hg2 : rest.length ≤ g := by simp at hg; omega
        have hd : (rest.drop (sep.length - 1)).length ≤ rest.length := by
          rw [List.length_drop]; omega
        by_cases h : isPrefixB sep (c :: rest) = true ∧ sep ≠ []
        · rw [if_pos h, if_pos h]
          exact congrArg (List.cons []) (ih g _ (le_trans hd hf2) (le_trans hd hg2))
        · rw [if_neg h, if_neg h]
          exact congrArg (consHead c) (ih g rest hf2 hg2)

/-- pySplitF does not split a string that lacks the separator. -/
theorem pySplitF_not_hasSub (sep : Str) :
    ∀ (f : Nat) (l : Str), l.length ≤ f → hasSub sep l = false →
      pySplitF sep f l = [l] := by
  intro f
  induction f with
  | zero =>
    intro l hf _
    have hl : l = [] := List.length_eq_zero.mp (Nat.le_zero.mp hf)
    subst hl; rfl
  | succ f ih =>
    intro l hf hs
    cases l with
    | nil => rfl
    | cons c rest =>
      obtain ⟨h1, h2⟩ := hasSub_cons_elim sep c rest hs
      simp only [pySplitF]
      rw [if_neg (by simp [h1])]
      rw [ih rest (by simp at hf; omega) h2]
      rfl

/-- Splitting on "to" around the explicit " to " separator: with no
other occurrence of "to" on either side, exactly two parts result. -/
theorem pySplitF_to_block (Y : Str) (hY : hasSub ['t', 'o'] Y = false) :
    ∀ (X : Str) (f : Nat), (X ++ ' ' :: 't' :: 'o' :: ' ' :: Y).length ≤ f →
      hasSub ['t', 'o'] X = false →
      pySplitF ['t', 'o'] f (X ++ ' ' :: 't' :: 'o' :: ' ' :: Y)
        = [X ++ [' '], ' ' :: Y] := by
  intro X
  induction X with
  | nil =>
    intro f hf _
    simp only [List.nil_append, List.length_cons] at hf ⊢
    obtain ⟨f1, rfl⟩ : ∃ f1, f = f1 + 1 := ⟨f - 1, by omega⟩
    simp only [pySplitF]
    rw [if_neg (by
      rw [show isPrefixB ['t', 'o'] (' ' :: 't' :: 'o' :: ' ' :: Y) = false from rfl]
      simp)]
    obtain ⟨f2, rfl⟩ : ∃ f2, f1 = f2 + 1 := ⟨f1 - 1, by omega⟩
    simp only [pySplitF]
    rw [if_pos ⟨rfl, by simp⟩]
    rw [show (('o' :: ' ' :: Y).drop (['t', 'o'].length - 1)) = ' ' :: Y from rfl]
    rw [pySplitF_not_hasSub ['t', 'o'] f2 (' ' :: Y) (by simp; omega)
      (hasSub_cons_false _ _ _ rfl hY)]
    rfl
  | cons c X2 ih =>
    intro f hf hX
    obtain ⟨f1, rfl⟩ : ∃ f1, f = f1 + 1 := ⟨f - 1, by simp at hf; omega⟩
    rw [List.cons_append]
    simp only [pySplitF]
    rw [if_neg ?_]
    · rw [ih f1 (by simp at hf ⊢; omega) (hasSub_cons_elim _ _ _ hX).2]
      rfl
    · rintro ⟨hp, -⟩
      simp only [isPrefixB] at hp
      split at hp
      next htc =>
        cases X2 with
        | nil => simp [isPrefixB] at hp
        | cons d X3 =>
          rw [List.cons_append] at hp
          simp only [isPrefixB] at hp
          split at hp
          next hod =>
            subst htc
            subst hod
            simp [hasSub, isPrefixB] at hX
          next => exact Bool.false_ne_true hp
      next => exact Bool.false_ne_true hp

/-- Wrapper of the previous lemma at the exact fuel used by pySplit. -/
theorem pySplit_to_block (X Y : Str) (hX : hasSub ['t', 'o'] X = false)
    (hY : hasSub ['t', 'o'] Y = false) :
    pySplit ['t', 'o'] (X ++ ' ' :: 't' :: 'o' :: ' ' :: Y) = [X ++ [' '], ' ' :: Y] :=
  pySplitF_to_block Y hY X _ le_rfl hX

/-- A prefix match that avoids a final appended character restricts to
the original list, provided the pattern avoids that character. -/
theorem isPrefixB_snoc (c : Char) :
    ∀ (pat l : Str), (∀ x ∈ pat, x ≠ c) → isPrefixB pat (l ++ [c]) = true →
      isPrefixB pat l = true := by
  intro pat
  induction pat with
  | nil => intro l _ _; rfl
  | cons p ps ih =>
    intro l hc h
    cases l with
    | nil =>
      exfalso
      simp only [List.nil_append, isPrefixB] at h
      split at h
      next hpc => exact hc p (List.mem_cons_self p ps) hpc
      next => exact Bool.false_ne_true h
    | cons b l2 =>
      simp only [List.cons_append, isPrefixB] at h ⊢
      split at h
      next hpb =>
        rw [if_pos hpb]
        exact ih l2 (fun x hx => hc x (List.mem_cons_of_mem p hx)) h
      next => exact absurd h Bool.false_ne_true

/-- Appending a character the pattern avoids cannot create a substring
occurrence. -/
theorem hasSub_snoc (c : Char) (pat : Str) (hne : pat ≠ [])
    (hc : ∀ x ∈ pat, x ≠ c) :
    ∀ (l : Str), hasSub pat l = false → hasSub pat (l ++ [c]) = false := by
  intro l
  induction l with
  | nil =>
    intro _
    apply hasSub_cons_false
    · cases hp : isPrefixB pat [c] with
      | false => rfl
      | true =>
        exfalso
        have h0 : isPrefixB pat [] = true := isPrefixB_snoc c pat [] hc (by simpa using hp)
        cases pat with
        | nil => exact hne rfl
        | cons p ps => simp [isPrefixB] at h0
    · cases pat with
      | nil => exact absurd rfl hne
      | cons p ps => rfl
  | cons b l2 ih =>
    intro h
    obtain ⟨h1, h2⟩ := hasSub_cons_elim pat b l2 h
    rw [List.cons_append]
    apply hasSub_cons_false
    · cases hp : isPrefixB pat (b :: (l2 ++ [c])) with
      | false => rfl
      | true =>
        exfalso
        have hh := isPrefixB_snoc c pat (b :: l2) hc (by simpa using hp)
        rw [hh] at h1
        exact Bool.false_ne_true h1.symm
    · exact ih h2

/-- No occurrence of "to" appears inside the added "from " head. -/
theorem hasSub_to_from_head (l : Str) (h : hasSub ['t', 'o'] l = false) :
    hasSub ['t', 'o'] ('f' :: 'r' :: 'o' :: 'm' :: ' ' :: l) = false :=
  hasSub_cons_false ['t', 'o'] 'f' ('r' :: 'o' :: 'm' :: ' ' :: l) rfl
    (hasSub_cons_false ['t', 'o'] 'r' ('o' :: 'm' :: ' ' :: l) rfl
      (hasSub_cons_false ['t', 'o'] 'o' ('m' :: ' ' :: l) rfl
        (hasSub_cons_false ['t', 'o'] 'm' (' ' :: l) rfl
          (hasSub_cons_false ['t', 'o'] ' ' l rfl h))))

/-- Distributing lstrip over an append. -/
theorem lstrip_append (l m : Str) :
    lstrip (l ++ m) = if lstrip l = [] then lstrip m else lstrip l ++ m := by
  induction l with
  | nil => simp [lstrip]
  | cons c l2 ih =>
    by_cases hc : isPySpace c = true
    · simpa [lstrip, List.dropWhile_cons, hc] using ih
    · simp [lstrip, List.dropWhile_cons, hc]

/-- Stripping ignores a leading space. -/
theorem pyStrip_cons_space (l : Str) : pyStrip (' ' :: l) = pyStrip l := by
  simp [pyStrip, lstrip, List.dropWhile_cons, show isPySpace ' ' = true from rfl]

/-- Stripping ignores a trailing space. -/
theorem pyStrip_snoc_space (l : Str) : pyStrip (l ++ [' ']) = pyStrip l := by
  unfold pyStrip
  rw [lstrip_append]
  by_cases h : lstrip l = []
  · rw [if_pos h, h]
    rfl
  · rw [if_neg h, List.reverse_append]
    rw [show ([' '] : Str).reverse = [' '] from rfl]
    rw [show [' '] ++ (lstrip l).reverse = ' ' :: (lstrip l).reverse from rfl]
    rw [show lstrip (' ' :: (lstrip l).reverse) = lstrip ((lstrip l).reverse) by
      simp [lstrip, List.dropWhile_cons, show isPySpace ' ' = true from rfl]]

/-- Stripping ignores one space on each side. -/
theorem pyStrip_wrap_space (l : Str) : pyStrip (' ' :: (l ++ [' '])) = pyStrip l := by
  rw [pyStrip_cons_space, pyStrip_snoc_space]

/-- A stripped string headed by a non-space character keeps that head. -/
theorem pyStrip_cons_nonspace (c : Char) (t : Str) (hc : isPySpace c = false) :
    ∃ u, pyStrip (c :: t) = c :: u := by
  unfold pyStrip
  rw [show lstrip (c :: t) = c :: t by simp [lstrip, List.dropWhile_cons, hc]]
  rw [show (c :: t).reverse = t.reverse ++ [c] by simp]
  rw [lstrip_append]
  by_cases h : lstrip t.reverse = []
  · rw [if_pos h]
    exact ⟨[], by simp [lstrip, List.dropWhile_cons, hc]⟩
  · rw [if_neg h]
    exact ⟨(lstrip t.reverse).reverse, by simp⟩

/-- A message starting with the letter f is not a greeting after
lowering and stripping. -/
theorem from_not_greeting (t : Str) : pyStrip (pyLower ('f' :: t)) ∉ greetings := by
  rw [show pyLower ('f' :: t) = 'f' :: pyLower t from rfl]
  obtain ⟨u, hu⟩ := pyStrip_cons_nonspace 'f' (pyLower t) rfl
  rw [hu]
  intro hmem
  rw [show greetings = [['h', 'i'], ['h', 'e', 'l', 'l', 'o'],
    ['h', 'e', 'y'], ['s', 't', 'a', 'r', 't']] from rfl] at hmem
  simp only [List.mem_cons, List.not_mem_nil, or_false] at hmem
  rcases hmem with h | h | h | h <;>
    (injection h with h1 _; exact absurd h1 (by decide))

/-- Two cons lists with different heads differ. -/
theorem cons_ne_of_head_ne {c d : Char} {l m : Str} (h : c ≠ d) : c :: l ≠ d :: m := by
  intro he
  injection he with h1 _
  exact h h1

/-- Cancelling a common leading segment in a prefix test. -/
theorem isPrefixB_append_cancel (x y z : Str) :
    isPrefixB (x ++ y) (x ++ z) = isPrefixB y z := by
  induction x with
  | nil => rfl
  | cons c xs ih => simp [isPrefixB, ih]

/-- Parsing result of the direct-route detector on a well-formed
"from X to Y" message whose segments contain no further "to" and whose
origin contains no further "from". -/
theorem route_detect_from_to (X Y : Str)
    (hX1 : hasSub ['t', 'o'] (pyLower X) = false)
    (hX2 : hasSub ['f', 'r', 'o', 'm'] (pyLower X) = false)
    (hY1 : hasSub ['t', 'o'] (pyLower Y) = false)
    (hX3 : pyStrip (pyLower X) ≠ [])
    (hY2 : pyStrip (pyLower Y) ≠ []) :
    route_detect (str ("from ") ++ X ++ (str (" to ") ++ Y))
      = some (pyStrip (pyLower X), pyStrip (pyLower Y)) := by
  have hmsg : pyLower (str ("from ") ++ X ++ (str (" to ") ++ Y))
      = ('f' :: 'r' :: 'o' :: 'm' :: ' ' :: pyLower X)
          ++ ' ' :: 't' :: 'o' :: ' ' :: pyLower Y := by
    simp only [pyLower, List.map_append]
    rw [show List.map Char.toLower (str ("from ")) = ['f', 'r', 'o', 'm', ' '] from rfl,
        show List.map Char.toLower (str (" to ")) = [' ', 't', 'o', ' '] from rfl]
    simp [List.append_assoc]
  simp only [route_detect]
  rw [hmsg]
  rw [if_pos ⟨hasSub_of_isPrefixB _ _ rfl, hasSub_append_right _ _ _ rfl⟩]
  have hparts : pySplit (str ("to"))
      (('f' :: 'r' :: 'o' :: 'm' :: ' ' :: pyLower X) ++ ' ' :: 't' :: 'o' :: ' ' :: pyLower Y)
      = [('f' :: 'r' :: 'o' :: 'm' :: ' ' :: pyLower X) ++ [' '], ' ' :: pyLower Y] := by
    rw [show str ("to") = ['t', 'o'] from rfl]
    exact pySplit_to_block _ _ (hasSub_to_from_head _ hX1) hY1
  rw [hparts]
  set A := ('f' :: 'r' :: 'o' :: 'm' :: ' ' :: pyLower X) ++ [' '] with hA
  set B := ' ' :: pyLower Y with hB
  rw [if_pos (show 1 < ([A, B] : List Str).length by simp)]
  rw [show ([A, B] : List Str).getD 0 [] = A from rfl,
      show ([A, B] : List Str).getD 1 [] = B from rfl]
  rw [hA, hB]
  have hst : pyStrip (pyReplace (str ("from")) []
      (('f' :: 'r' :: 'o' :: 'm' :: ' ' :: pyLower X) ++ [' '])) = pyStrip (pyLower X) := by
    rw [show (('f' :: 'r' :: 'o' :: 'm' :: ' ' :: pyLower X) ++ [' '])
        = ['f', 'r', 'o', 'm'] ++ (' ' :: (pyLower X ++ [' '])) from rfl]
    rw [show str ("from") = ['f', 'r', 'o', 'm'] from rfl]
    rw [pyReplace_append_self ['f', 'r', 'o', 'm'] [] (' ' :: (pyLower X ++ [' '])) (by simp)]
    rw [List.nil_append]
    rw [pyReplace_not_hasSub ['f', 'r', 'o', 'm'] [] (' ' :: (pyLower X ++ [' ']))
      (hasSub_cons_false ['f', 'r', 'o', 'm'] ' ' (pyLower X ++ [' ']) rfl
        (hasSub_snoc ' ' ['f', 'r', 'o', 'm'] (by simp) (by decide) (pyLower X) hX2))]
    exact pyStrip_wrap_space (pyLower X)
  rw [hst, pyStrip_cons_space (pyLower Y)]
  rw [if_pos ⟨hX3, hY2⟩]

/-- Outcome of handle_message on the awaiting-start path when both
geocoding calls succeed. -/
theorem hm_awaiting_success (geo : Str → Option Coord) (appUrl uid uname : Str)
    (s : Session) (text : Str) (sc ec : Coord)
    (hg : pyStrip (pyLower text) ∉ greetings) (ha : s.awaiting_start = true)
    (h1 : geo text = some sc) (h2 : geo (s.destination.getD []) = some ec) :
    handle_message geo appUrl uid uname s text =
      (Session.empty,
       [Reply.finding,
        Reply.routeReady text (s.destination.getD []) (specLink appUrl sc ec uid)]) := by
  simp only [handle_message]
  rw [if_neg hg, if_pos ha, h1, h2]
  rfl

/-- Outcome of handle_message on the direct-route path when detection
and both geocoding calls succeed. -/
theorem hm_direct_success (geo : Str → Option Coord) (appUrl uid uname : Str)
    (s : Session) (text st en : Str) (sc ec : Coord)
    (hg : pyStrip (pyLower text) ∉ greetings) (ha : s.awaiting_start = false)
    (hrd : route_detect text = some (st, en))
    (h1 : geo st = some sc) (h2 : geo en = some ec) :
    handle_message geo appUrl uid uname s text =
      (s, [Reply.finding, Reply.routeReady st en (specLink appUrl sc ec uid)]) := by
  simp only [handle_message]
  rw [if_neg hg, if_neg (by simp [ha])]
  simp only [hrd, h1, h2]
  rfl

/-- Reduction of handle_callback on any distance selection. -/
theorem handle_callback_dist (s : Session) (d : Str) :
    handle_callback s (str ("dist_") ++ d) =
      ({ s with recommendations := some (distRecs s) }, [Reply.placeMenu (distRecs s)]) := rfl

/-- C7: for every session and every pair of distance-bucket selections,
the stored and rendered output of the distance-selection handler is
identical; the chosen bucket has no effect on the recommendations. -/
theorem c7_distance_noninterference (s : Session) (d1 d2 : Str) :
    handle_callback s (str ("dist_") ++ d1) = handle_callback s (str ("dist_") ++ d2) := by
  rw [handle_callback_dist s d1, handle_callback_dist s d2]

/-- C6: for every mood selection from the mood menu, the distance menu
is shown next, and the recommendations stored by the subsequent
distance selection equal the fixed three-entry list for that mood; when
no mood is recorded, the distance selection stores the nature list. -/
theorem c6_mood_flow (s : Session) (m d : Str)
    (hm : m ∈ [str ("nature"), str ("food"), str ("views")]) :
    (handle_callback s (str ("mood_") ++ m)).2 = [Reply.distMenu m] ∧
    (handle_callback (handle_callback s (str ("mood_") ++ m)).1
        (str ("dist_") ++ d)).1.recommendations = some (specPlacesFor m) ∧
    (s.mood = none →
      (handle_callback s (str ("dist_") ++ d)).1.recommendations = some naturePlaces) := by
  have h3 : s.mood = none →
      (handle_callback s (str ("dist_") ++ d)).1.recommendations = some naturePlaces := by
    intro h
    rw [handle_callback_dist s d]
    show some (distRecs s) = some naturePlaces
    simp only [distRecs]
    rw [h]
    rfl
  simp only [List.mem_cons, List.not_mem_nil, or_false] at hm
  rcases hm with rfl | rfl | rfl
  · exact ⟨rfl, rfl, h3⟩
  · exact ⟨rfl, rfl, h3⟩
  · exact ⟨rfl, rfl, h3⟩

/-- Witness for C6 at the food mood from the empty session. -/
theorem c6_witness :
    (handle_callback Session.empty (str ("mood_") ++ str ("food"))).2
      = [Reply.distMenu (str ("food"))] ∧
    (handle_callback (handle_callback Session.empty (str ("mood_") ++ str ("food"))).1
        (str ("dist_") ++ str ("short"))).1.recommendations
      = some (specPlacesFor (str ("food"))) ∧
    (handle_callback Session.empty (str ("dist_") ++ str ("short"))).1.recommendations
      = some naturePlaces := by
  have h := c6_mood_flow Session.empty (str ("food")) (str ("short")) (by decide)
  exact ⟨h.1, h.2.1, h.2.2 rfl⟩

/-- C5: a greeting message, after lowering and stripping, resets the
session to empty and shows the mode-choice menu, for every user and
every prior session state. -/
theorem c5_greeting_resets (geo : Str → Option Coord) (appUrl uid uname : Str)
    (s : Session) (text : Str)
    (hg : pyStrip (pyLower text) ∈ greetings) :
    handle_message geo appUrl uid uname s text = (Session.empty, [Reply.modeMenu uname]) := by
  simp only [handle_message]
  rw [if_pos hg]
  rfl

/-- Witness for C5 at a concrete mixed-case padded greeting from a
nonempty prior session. -/
theorem c5_witness :
    handle_message (fun _ => none) (str ("https://app.example")) (str ("42")) (str ("alice"))
      { mood := some (str ("food")), awaiting_start := true } (str ("  HeLLo  "))
      = (Session.empty, [Reply.modeMenu (str ("alice"))]) :=
  c5_greeting_resets _ _ _ _ _ _ (by decide)

/-- C4: on the awaiting-start path, if geocoding fails for the typed
origin or for the stored destination, no link is produced, the retry
message is sent, and the session is left unchanged. -/
theorem c4_geocode_failure_retry (geo : Str → Option Coord) (appUrl uid uname : Str)
    (s : Session) (text : Str)
    (hg : pyStrip (pyLower text) ∉ greetings) (ha : s.awaiting_start = true)
    (hf : geo text = none ∨ geo (s.destination.getD []) = none) :
    handle_message geo appUrl uid uname s text = (s, [Reply.finding, Reply.notFound]) := by
  simp only [handle_message]
  rw [if_neg hg, if_pos ha]
  rcases hf with hf | hf
  · rw [hf]
  · cases hx : geo text with
    | none => rfl
    | some sc => rw [hf]

/-- Witness for C4 at a geocoder that always fails. -/
theorem c4_witness :
    handle_message (fun _ => none) (str ("https://app.example")) (str ("42")) (str ("alice"))
      { destination := some (str ("Tiong Bahru")), awaiting_start := true } (str ("Orchard"))
      = ({ destination := some (str ("Tiong Bahru")), awaiting_start := true },
         [Reply.finding, Reply.notFound]) :=
  c4_geocode_failure_retry _ _ _ _ _ _ (by decide) rfl (Or.inl rfl)

/-- C8: the geocoder model never propagates an error: it is total,
returns the first result's coordinates on success and none on any
failure, and its query appends the fixed regional qualifier to the
place name. -/
theorem c8_geocoder_total (place : Str) (resp : GeoResponse) :
    (geocode_location place resp = none ∨
      ∃ r rs, resp = GeoResponse.results (r :: rs) ∧
        ∃ la lo, r.lat = some la ∧ r.lon = some lo ∧
          geocode_location place resp = some (la, lo)) ∧
    hasSub (place ++ str (", Singapore")) (geocode_query place) = true := by
  constructor
  · cases resp with
    | failure => exact Or.inl rfl
    | results rs =>
      cases rs with
      | nil => exact Or.inl rfl
      | cons r rest =>
        cases hla : r.lat with
        | none => exact Or.inl (by simp [geocode_location, hla])
        | some la =>
          cases hlo : r.lon with
          | none => exact Or.inl (by simp [geocode_location, hla, hlo])
          | some lo =>
            exact Or.inr ⟨r, rest, rfl, la, lo, hla, hlo,
              by simp [geocode_location, hla, hlo]⟩
  · simp only [geocode_query]
    apply hasSub_append_right
    apply hasSub_of_isPrefixB
    rw [show place ++ str (", Singapore&format=json&limit=1")
        = place ++ (str (", Singapore") ++ str ("&format=json&limit=1")) from rfl]
    rw [isPrefixB_append_cancel place (str (", Singapore"))
      (str (", Singapore") ++ str ("&format=json&limit=1"))]
    exact isPrefixB_append_self (str (", Singapore")) (str ("&format=json&limit=1"))

/-- C1 counterexample: on a successful route the link sent carries a tg
query parameter, not the user parameter asserted by the claim. -/
theorem c1_counterexample :
    handle_message (fun q => if q = str ("Orchard") then some (str ("1.30"), str ("103.83"))
        else some (str ("1.28"), str ("103.85")))
      (str ("https://app.example")) (str ("42")) (str ("alice"))
      { destination := some (str ("Tiong Bahru")), awaiting_start := true } (str ("Orchard"))
      = (Session.empty,
         [Reply.finding, Reply.routeReady (str ("Orchard")) (str ("Tiong Bahru"))
           (str ("https://app.example?start=1.30,103.83&end=1.28,103.85&tg=42"))]) ∧
    str ("https://app.example?start=1.30,103.83&end=1.28,103.85&tg=42")
      ≠ str ("https://app.example?start=1.30,103.83&end=1.28,103.85&user=42") := by
  decide

/-- C1 amended: on both link-producing paths, the link sent is exactly
the base URL followed by the start, end and tg query parameters
carrying the two coordinate pairs and the requesting user identifier. -/
theorem c1_link_query_params (geo : Str → Option Coord) (appUrl uid uname : Str)
    (s : Session) (text st en : Str) (sc ec : Coord) :
    (pyStrip (pyLower text) ∉ greetings → s.awaiting_start = true →
      geo text = some sc → geo (s.destination.getD []) = some ec →
      handle_message geo appUrl uid uname s text =
        (Session.empty, [Reply.finding,
          Reply.routeReady text (s.destination.getD []) (specLink appUrl sc ec uid)])) ∧
    (pyStrip (pyLower text) ∉ greetings → s.awaiting_start = false →
      route_detect text = some (st, en) → geo st = some sc → geo en = some ec →
      handle_message geo appUrl uid uname s text =
        (s, [Reply.finding, Reply.routeReady st en (specLink appUrl sc ec uid)])) :=
  ⟨fun hg ha h1 h2 => hm_awaiting_success geo appUrl uid uname s text sc ec hg ha h1 h2,
   fun hg ha hrd h1 h2 =>
     hm_direct_success geo appUrl uid uname s text st en sc ec hg ha hrd h1 h2⟩

/-- Witness for C1 on both paths at concrete inputs. -/
theorem c1_witness :
    handle_message (fun _ => some (str ("1.3"), str ("103.8"))) (str ("https://app.example"))
      (str ("42")) (str ("alice"))
      { destination := some (str ("Tiong Bahru")), awaiting_start := true } (str ("Orchard"))
      = (Session.empty,
         [Reply.finding, Reply.routeReady (str ("Orchard")) (str ("Tiong Bahru"))
           (specLink (str ("https://app.example")) (str ("1.3"), str ("103.8"))
             (str ("1.3"), str ("103.8")) (str ("42")))]) ∧
    handle_message (fun _ => some (str ("1.3"), str ("103.8"))) (str ("https://app.example"))
      (str ("42")) (str ("alice")) Session.empty (str ("from a to b"))
      = (Session.empty,
         [Reply.finding, Reply.routeReady (str ("a")) (str ("b"))
           (specLink (str ("https://app.example")) (str ("1.3"), str ("103.8"))
             (str ("1.3"), str ("103.8")) (str ("42")))]) :=
  ⟨(c1_link_query_params _ _ _ _ _ _ (str ("x")) (str ("y")) _ _).1 (by decide) rfl rfl rfl,
   (c1_link_query_params _ _ _ _ _ _ (str ("a")) (str ("b")) _ _).2
     (by decide) rfl (by decide) rfl rfl⟩

/-- C2 counterexample: the free-text direct path sends a route link but
leaves the nonempty session unchanged instead of resetting it. -/
theorem c2_counterexample :
    handle_message (fun _ => some (str ("1.3"), str ("103.8"))) (str ("https://app.example"))
      (str ("42")) (str ("alice")) { mode := some (str ("direct")) } (str ("from a to b"))
      = ({ mode := some (str ("direct")) },
         [Reply.finding, Reply.routeReady (str ("a")) (str ("b"))
           (str ("https://app.example?start=1.3,103.8&end=1.3,103.8&tg=42"))]) ∧
    ({ mode := some (str ("direct")) } : Session) ≠ Session.empty := by
  decide

/-- C2 amended: after a link is sent, the awaiting-start path resets
the session to empty, while the free-text direct path leaves the
session unchanged. -/
theorem c2_session_reset (geo : Str → Option Coord) (appUrl uid uname : Str)
    (s : Session) (text st en : Str) (sc ec : Coord) :
    (pyStrip (pyLower text) ∉ greetings → s.awaiting_start = true →
      geo text = some sc → geo (s.destination.getD []) = some ec →
      (handle_message geo appUrl uid uname s text).1 = Session.empty) ∧
    (pyStrip (pyLower text) ∉ greetings → s.awaiting_start = false →
      route_detect text = some (st, en) → geo st = some sc → geo en = some ec →
      (handle_message geo appUrl uid uname s text).1 = s) :=
  ⟨fun hg ha h1 h2 => by
      rw [hm_awaiting_success geo appUrl uid uname s text sc ec hg ha h1 h2],
   fun hg ha hrd h1 h2 => by
      rw [hm_direct_success geo appUrl uid uname s text st en sc ec hg ha hrd h1 h2]⟩

/-- Witness for C2 on both paths at concrete inputs. -/
theorem c2_witness :
    (handle_message (fun _ => some (str ("1.3"), str ("103.8"))) (str ("A")) (str ("42"))
        (str ("alice")) { destination := some (str ("B")), awaiting_start := true }
        (str ("Orchard"))).1 = Session.empty ∧
    (handle_message (fun _ => some (str ("1.3"), str ("103.8"))) (str ("A")) (str ("42"))
        (str ("alice")) { mode := some (str ("direct")) } (str ("from a to b"))).1
      = { mode := some (str ("direct")) } :=
  ⟨(c2_session_reset _ _ _ _ _ _ (str ("x")) (str ("y")) (str ("1.3"), str ("103.8"))
      (str ("1.3"), str ("103.8"))).1 (by decide) rfl rfl rfl,
   (c2_session_reset _ _ _ _ _ _ (str ("a")) (str ("b")) (str ("1.3"), str ("103.8"))
      (str ("1.3"), str ("103.8"))).2 (by decide) rfl (by decide) rfl rfl⟩

/-- C3 counterexample: the negative index in "place_-1" passes the
upper-bound check and, through negative indexing, stores a destination
and sends a prompt instead of being ignored. -/
theorem c3_counterexample :
    pyInt (pyReplace (str ("place_")) [] (str ("place_-1"))) = some (-1) ∧
    ((-1 : Int) < 0) ∧
    (handle_callback { recommendations := some naturePlaces } (str ("place_-1"))).1.destination
      = some (str ("Punggol Waterway")) ∧
    (handle_callback { recommendations := some naturePlaces } (str ("place_-1"))).2
      = [Reply.askStart (str ("Punggol Waterway"))] := by
  decide

/-- C3 amended: a selection index at or above the list length, or below
minus the list length, leaves the session unchanged and sends no
message; a negative index within the length instead selects from the
end of the list. -/
theorem c3_selection_ignored (s : Session) (data : Str) (idx : Int)
    (h1 : isPrefixB (str ("place_")) data = true)
    (h2 : pyInt (pyReplace (str ("place_")) [] data) = some idx)
    (h3 : ((s.recommendations.getD []).length : Int) ≤ idx ∨
      idx < -(((s.recommendations.getD []).length : Int))) :
    handle_callback s data = (s, []) := by
  obtain ⟨t, rfl⟩ : ∃ t, data = 'p' :: t := by
    have h1x := h1
    rw [show str ("place_") = ['p', 'l', 'a', 'c', 'e', '_'] from rfl] at h1x
    cases data with
    | nil => exact absurd h1x (by decide)
    | cons c rest =>
      simp only [isPrefixB] at h1x
      split at h1x
      next hpc => exact ⟨rest, by rw [← hpc]⟩
      next => exact absurd h1x (by simp)
  have hne1 : ('p' :: t) ≠ str ("mode_direct") := cons_ne_of_head_ne (by decide)
  have hne2 : ('p' :: t) ≠ str ("mode_recommend") := cons_ne_of_head_ne (by decide)
  have hne3 : ¬(isPrefixB (str ("mood_")) ('p' :: t) = true) := Bool.false_ne_true
  have hne4 : ¬(isPrefixB (str ("dist_")) ('p' :: t) = true) := Bool.false_ne_true
  simp only [handle_callback]
  rw [if_neg hne1, if_neg hne2, if_neg hne3, if_neg hne4, if_pos h1]
  rcases h3 with h3 | h3
  · simp only [h2]
    split
    next hlt => exact absurd hlt (by omega)
    next => rfl
  · have hpi : pyIndex (s.recommendations.getD []) idx = none := by
      simp only [pyIndex]
      split
      next h0 => exact absurd h0 (by omega)
      next =>
        split
        next h0 => exact absurd h0 (by omega)
        next => rfl
    simp only [h2, hpi]
    split
    next => rfl
    next => rfl

/-- Witness for C3 at a concrete over-length index. -/
theorem c3_witness :
    handle_callback { recommendations := some naturePlaces } (str ("place_7"))
      = ({ recommendations := some naturePlaces }, []) :=
  c3_selection_ignored _ _ 7 (by decide) (by decide) (by decide)

/-- C9 counterexample: callback data "mood_mood_food" starts with
"mood_" and has suffix "mood_food", but replace-all stores "food". -/
theorem c9_counterexample :
    str ("mood_mood_food") = str ("mood_") ++ str ("mood_food") ∧
    (handle_callback Session.empty (str ("mood_mood_food"))).1.mood
      ≠ some (str ("mood_food")) ∧
    (handle_callback Session.empty (str ("mood_mood_food"))).1.mood
      = some (str ("food")) := by
  decide

/-- C9 amended: the mood branch stores the callback suffix with every
occurrence of "mood_" removed, which is the suffix itself whenever the
suffix contains no further "mood_", without validating it; a distance
selection with a stored mood outside the fixed set yields the nature
list. -/
theorem c9_mood_unvalidated (s : Session) (sfx d : Str) :
    (handle_callback s (str ("mood_") ++ sfx)).1.mood
      = some (pyReplace (str ("mood_")) [] sfx) ∧
    (hasSub (str ("mood_")) sfx = false →
      (handle_callback s (str ("mood_") ++ sfx)).1.mood = some sfx) ∧
    (∀ m, s.mood = some m → m ∉ [str ("nature"), str ("food"), str ("views")] →
      (handle_callback s (str ("dist_") ++ d)).1.recommendations = some naturePlaces) := by
  have hrepl : pyReplace (str ("mood_")) [] (str ("mood_") ++ sfx)
      = pyReplace (str ("mood_")) [] sfx := by
    rw [show str ("mood_") = ['m', 'o', 'o', 'd', '_'] from rfl]
    rw [pyReplace_append_self ['m', 'o', 'o', 'd', '_'] [] sfx (by simp), List.nil_append]
  have hbase : (handle_callback s (str ("mood_") ++ sfx)).1.mood
      = some (pyReplace (str ("mood_")) [] (str ("mood_") ++ sfx)) := rfl
  refine ⟨hbase.trans (by rw [hrepl]),
    fun hs => hbase.trans
      (by rw [hrepl, pyReplace_not_hasSub (str ("mood_")) [] sfx hs]),
    fun m hm hnot => ?_⟩
  rw [handle_callback_dist s d]
  show some (distRecs s) = some naturePlaces
  simp only [distRecs]
  rw [hm]
  have hlk : FALLBACK_PLACES.lookup m = none := by
    simp only [List.mem_cons, List.not_mem_nil, or_false, not_or] at hnot
    obtain ⟨hn1, hn2, hn3⟩ := hnot
    simp only [FALLBACK_PLACES, List.lookup]
    rw [beq_eq_false_iff_ne.mpr hn1, beq_eq_false_iff_ne.mpr hn2,
      beq_eq_false_iff_ne.mpr hn3]
  simp only [Option.getD_some]
  rw [hlk]
  rfl

/-- Witness for C9 at a concrete unknown mood. -/
theorem c9_witness :
    (handle_callback Session.empty (str ("mood_") ++ str ("chill"))).1.mood
      = some (str ("chill")) ∧
    (handle_callback { mood := some (str ("chill")) }
        (str ("dist_") ++ str ("short"))).1.recommendations = some naturePlaces :=
  ⟨(c9_mood_unvalidated Session.empty (str ("chill")) (str ("short"))).2.1 (by decide),
   (c9_mood_unvalidated { mood := some (str ("chill")) } (str ("chill")) (str ("short"))).2.2
     (str ("chill")) rfl (by decide)⟩

/-- C10 counterexample: in "from fromage to paris" the origin segment
contains "from", so replace-all geocodes and echoes "age" rather than
the lowercased stripped origin segment "fromage". -/
theorem c10_counterexample :
    str ("from fromage to paris")
      = str ("from ") ++ str ("fromage") ++ (str (" to ") ++ str ("paris")) ∧
    pyStrip (pyLower (str ("fromage"))) = str ("fromage") ∧
    route_detect (str ("from fromage to paris")) = some (str ("age"), str ("paris")) ∧
    str ("age") ≠ str ("fromage") ∧
    handle_message (fun _ => some (str ("1.3"), str ("103.8"))) (str ("https://app.example"))
      (str ("42")) (str ("alice")) Session.empty (str ("from fromage to paris"))
      = (Session.empty,
         [Reply.finding, Reply.routeReady (str ("age")) (str ("paris"))
           (str ("https://app.example?start=1.3,103.8&end=1.3,103.8&tg=42"))]) := by
  decide

/-- C10 amended: for a message "from X to Y" whose lowercased segments
contain no further "to" and whose origin segment contains no "from",
and whose stripped segments are nonempty, the origin passed to the
geocoder and echoed in the reply is the lowercased stripped X and the
destination is the lowercased stripped Y. -/
theorem c10_direct_route_parse (X Y : Str)
    (hX1 : hasSub (str ("to")) (pyLower X) = false)
    (hX2 : hasSub (str ("from")) (pyLower X) = false)
    (hY1 : hasSub (str ("to")) (pyLower Y) = false)
    (hX3 : pyStrip (pyLower X) ≠ [])
    (hY2 : pyStrip (pyLower Y) ≠ []) :
    route_detect (str ("from ") ++ X ++ (str (" to ") ++ Y))
      = some (pyStrip (pyLower X), pyStrip (pyLower Y)) ∧
    (∀ (geo : Str → Option Coord) (appUrl uid uname : Str) (s : Session) (sc ec : Coord),
      s.awaiting_start = false →
      geo (pyStrip (pyLower X)) = some sc → geo (pyStrip (pyLower Y)) = some ec →
      handle_message geo appUrl uid uname s (str ("from ") ++ X ++ (str (" to ") ++ Y))
        = (s, [Reply.finding,
            Reply.routeReady (pyStrip (pyLower X)) (pyStrip (pyLower Y))
              (specLink appUrl sc ec uid)])) := by
  rw [show str ("to") = ['t', 'o'] from rfl] at hX1 hY1
  rw [show str ("from") = ['f', 'r', 'o', 'm'] from rfl] at hX2
  have hrd := route_detect_from_to X Y hX1 hX2 hY1 hX3 hY2
  refine ⟨hrd, fun geo appUrl uid uname s sc ec ha h1 h2 => ?_⟩
  exact hm_direct_success geo appUrl uid uname s _ _ _ sc ec
    (from_not_greeting _) ha hrd h1 h2

/-- Witness for C10 at concrete origin and destination segments. -/
theorem c10_witness :
    route_detect (str ("from ") ++ str ("Marina Bay") ++ (str (" to ") ++ str ("East Coast")))
      = some (pyStrip (pyLower (str ("Marina Bay"))), pyStrip (pyLower (str ("East Coast")))) ∧
    handle_message (fun _ => some (str ("1.3"), str ("103.8"))) (str ("https://app.example"))
      (str ("42")) (str ("alice")) Session.empty
      (str ("from ") ++ str ("Marina Bay") ++ (str (" to ") ++ str ("East Coast")))
      = (Session.empty,
         [Reply.finding,
          Reply.routeReady (pyStrip (pyLower (str ("Marina Bay"))))
            (pyStrip (pyLower (str ("East Coast"))))
            (specLink (str ("https://app.example")) (str ("1.3"), str ("103.8"))
              (str ("1.3"), str ("103.8")) (str ("42")))]) := by
  have h := c10_direct_route_parse (str ("Marina Bay")) (str ("East Coast"))
    (by decide) (by decide) (by decide) (by decide) (by decide)
  exact ⟨h.1, h.2 _ _ _ _ _ _ _ rfl rfl rfl⟩

end CoolRide
